import Mathlib

/-!
Verification development for the sentinel-frontend entity-list controllers.

The repository is a React single-page admin console whose list pages
(company, country, city, district, line type, line, machine, KPI) all follow
one pattern: a debounced search issuing a filtered/sorted/paginated query to a
hosted backend, a modal create/edit form with eager name normalisation and a
regex allow-list, a pre-submit uniqueness check, and insert/update calls.

This file shallowly embeds that logic.  Pure helpers (`validateCompanyName`,
`handleNameChange`, `handleOrderChange`, `validateForm`) are translated
directly from the .tsx sources.  Stateful submit handlers become pure
functions from their inputs (session user, form values, database snapshot,
backend reply) to an explicit outcome datatype recording which backend
operation, if any, was issued and which message was set.  The external
backend-as-a-service (query filtering, ordering, range windows, counts) and
the lodash debounce are modelled from their documented semantics, since their
code is not part of the repository.  JavaScript string primitives are
modelled for the ASCII inputs the claims use.
-/

namespace Sentinel

/-- Characters matched by the JavaScript regex class backslash-s, restricted
to ASCII (space, tab, line feed, vertical tab, form feed, carriage return). -/
def jsWhitespaceChar (c : Char) : Bool :=
  c = ' ' || c = '\t' || c = '\n' || c = '\x0b' || c = '\x0c' || c = '\r'

/-- JavaScript `String.prototype.toUpperCase`, modelled on ASCII where it
agrees with `Char.toUpper`. -/
def jsToUpper (s : String) : String :=
  String.mk (s.data.map Char.toUpper)

/-- JavaScript `String.prototype.trim`: strip leading and trailing
whitespace. -/
def jsTrim (s : String) : String :=
  String.mk (((s.data.dropWhile jsWhitespaceChar).reverse.dropWhile jsWhitespaceChar).reverse)

/-- Decides whether `pat` occurs contiguously inside `hay`. -/
def listContainsSub (hay pat : List Char) : Bool :=
  match hay with
  | [] => pat.isEmpty
  | _ :: tl => pat.isPrefixOf hay || listContainsSub tl pat

/-- JavaScript `String.prototype.includes`. -/
def jsIncludes (s pat : String) : Bool :=
  listContainsSub s.data pat.data

/-- Case-insensitive substring match: the semantics of the PostgREST filter
`ilike name %term%` used by every list query. -/
def ilikeMatches (name term : String) : Bool :=
  listContainsSub (jsToUpper name).data (jsToUpper term).data

/-- Uppercase ASCII letter test, the `A-Z` part of the allow-list regexes. -/
def isUpperAZ (c : Char) : Bool :=
  decide (65 ≤ c.toNat) && decide (c.toNat ≤ 90)

/-- ASCII digit test, the `0-9` part of the line/machine allow-list. -/
def isDigit09 (c : Char) : Bool :=
  decide (48 ≤ c.toNat) && decide (c.toNat ≤ 57)

/-- CompanyList.tsx `validateCompanyName`: the regex
`^[A-Z backslash-s]*$` — every character is an uppercase letter or
whitespace (the empty string passes). -/
def validateCompanyName (name : String) : Bool :=
  name.data.all (fun c => isUpperAZ c || jsWhitespaceChar c)

/-- CityList.tsx `validateCityName`: same regex as the company validator. -/
def validateCityName (name : String) : Bool :=
  name.data.all (fun c => isUpperAZ c || jsWhitespaceChar c)

/-- LineList (src/unnamed/part_003) `validateLineName`: the regex
`^[A-Z0-9 backslash-s -]*$` — uppercase letters, digits, whitespace and
hyphens. -/
def validateLineName (name : String) : Bool :=
  name.data.all (fun c => isUpperAZ c || isDigit09 c || jsWhitespaceChar c || c = '-')

/-- KpiList.tsx (MachineList) `validateMachineName`: same allow-list as the
line validator. -/
def validateMachineName (name : String) : Bool :=
  name.data.all (fun c => isUpperAZ c || isDigit09 c || jsWhitespaceChar c || c = '-')

/-- CompanyList.tsx `handleNameChange`: eagerly uppercase the typed value,
store it in the form, and set or clear the inline error. -/
def companyHandleNameChange (value : String) : String × Option String :=
  let upperValue := jsToUpper value
  if validateCompanyName upperValue = false then
    (upperValue, some "Only English letters (A-Z) and spaces are allowed")
  else
    (upperValue, none)

/-- LineList `handleNameChange`: eagerly uppercase and validate against the
line allow-list. -/
def lineHandleNameChange (value : String) : String × Option String :=
  let upperValue := jsToUpper value
  if validateLineName upperValue = false then
    (upperValue, some "Only English letters (A-Z), numbers (0-9), spaces, and hyphens are allowed")
  else
    (upperValue, none)

/-- Company row, from the `Company` interface of CompanyList.tsx (audit
timestamps omitted: no embedded logic reads them). -/
structure Company where
  id : String
  name : String
deriving DecidableEq

/-- City row, from the `City` interface of CityList.tsx. -/
structure City where
  id : String
  name : String
  country_id : String
deriving DecidableEq

/-- KPI row, from the `KPI` interface of KpiList.tsx. -/
structure Kpi where
  id : String
  name : String
  unit : String
deriving DecidableEq

/-- Machine row, from the `Machine` interface of KpiList.tsx.  The `order`
column is an integer (the form can transiently hold out-of-range values). -/
structure Machine where
  id : String
  name : String
  order : Int
  line_id : String
deriving DecidableEq

/-- Supabase `maybeSingle()` on a result set: one row yields that row, zero
rows yield null, and more than one row is an error whose `data` is null (the
submit handlers destructure only `data`, discarding the error). -/
def maybeSingle {α : Type} (l : List α) : Option α :=
  match l with
  | [x] => some x
  | _ => none

/-- Outcome of the company submit handler: either a message is set and no
backend write is issued, or exactly one insert/update is issued. -/
inductive CompanyOutcome where
  | err (msg : String)
  | insertOp (name created_by : String)
  | updateOp (id name updated_by : String)
deriving DecidableEq

/-- CompanyList.tsx `handleSubmit`, as a pure function of the session user,
the form name, the row being edited (if any) and the database snapshot the
pre-check query runs against.  Backend failure of the write itself is not
modelled here (no claim about the company controller needs it). -/
def companyHandleSubmit (user : Option String) (formName : String)
    (editing : Option Company) (db : List Company) : CompanyOutcome :=
  match user with
  | none => .err "You must be logged in to perform this action"
  | some uid =>
    if validateCompanyName formName = false then
      .err "Invalid company name format"
    else
      let trimmedName := jsTrim formName
      let conflicts := db.filter (fun c =>
        c.name = trimmedName &&
        (match editing with
         | some e => c.id ≠ e.id
         | none => true))
      match maybeSingle conflicts with
      | some _ => .err "A company with this name already exists"
      | none =>
        match editing with
        | some e => .updateOp e.id trimmedName uid
        | none => .insertOp trimmedName uid

/-- City form state, from CityList.tsx `formData`. -/
structure CityForm where
  name : String
  country_id : String
deriving DecidableEq

/-- Outcome of the city submit handler. -/
inductive CityOutcome where
  | err (msg : String)
  | insertOp (name country_id created_by : String)
  | updateOp (id name country_id updated_by : String)
deriving DecidableEq

/-- Result set of the city uniqueness pre-check query of CityList.tsx
`handleSubmit`: rows whose name equals the trimmed form name and whose
`country_id` equals the selected parent, excluding the edited row's own id. -/
def cityConflicts (form : CityForm) (editing : Option City) (db : List City) : List City :=
  db.filter (fun c =>
    c.name = jsTrim form.name &&
    c.country_id = form.country_id &&
    (match editing with
     | some e => c.id ≠ e.id
     | none => true))

/-- CityList.tsx `handleSubmit`: auth check, regex check, parent selection
check, then the uniqueness pre-check scoped by `country_id` (excluding the
edited row's own id), then insert or update. -/
def cityHandleSubmit (user : Option String) (form : CityForm)
    (editing : Option City) (db : List City) : CityOutcome :=
  match user with
  | none => .err "You must be logged in to perform this action"
  | some uid =>
    if validateCityName form.name = false then
      .err "Invalid city name format"
    else if form.country_id = "" then
      .err "Please select a country"
    else
      let trimmedName := jsTrim form.name
      match maybeSingle (cityConflicts form editing db) with
      | some _ => .err "A city with this name already exists in the selected country"
      | none =>
        match editing with
        | some e => .updateOp e.id trimmedName form.country_id uid
        | none => .insertOp trimmedName form.country_id uid

/-- KPI form state, from KpiList.tsx `formData`. -/
structure KpiForm where
  name : String
  unit : String
deriving DecidableEq

/-- Outcome of the KPI submit handler. -/
inductive KpiOutcome where
  | err (msg : String)
  | insertOp (name unit created_by : String)
  | updateOp (id name unit updated_by : String)
deriving DecidableEq

/-- KpiList.tsx `handleSubmit`: auth check, then only a non-emptiness check
on the trimmed name and unit (no regex, no uppercasing), then the global
uniqueness pre-check, then insert or update. -/
def kpiHandleSubmit (user : Option String) (form : KpiForm)
    (editing : Option Kpi) (db : List Kpi) : KpiOutcome :=
  match user with
  | none => .err "You must be logged in to perform this action"
  | some uid =>
    let trimmedName := jsTrim form.name
    let trimmedUnit := jsTrim form.unit
    if trimmedName = "" || trimmedUnit = "" then
      .err "Name and unit are required"
    else
      let conflicts := db.filter (fun k =>
        k.name = trimmedName &&
        (match editing with
         | some e => k.id ≠ e.id
         | none => true))
      match maybeSingle conflicts with
      | some _ => .err "A KPI with this name already exists"
      | none =>
        match editing with
        | some e => .updateOp e.id trimmedName trimmedUnit uid
        | none => .insertOp trimmedName trimmedUnit uid

/-- Line form state, from the LineList component (src/unnamed/part_003). -/
structure LineForm where
  name : String
  company_id : String
  district_id : String
  line_type_id : String
deriving DecidableEq

/-- Line row (fields the submit handler reads). -/
structure LineRow where
  id : String
  name : String
  company_id : String
  district_id : String
deriving DecidableEq

/-- Outcome of the line submit handler. -/
inductive LineOutcome where
  | err (msg : String)
  | insertOp (name company_id district_id line_type_id created_by : String)
  | updateOp (id name company_id district_id line_type_id updated_by : String)
deriving DecidableEq

/-- LineList `handleSubmit`: auth check, regex check, required-parents check,
uniqueness pre-check scoped by company and district, then insert or update. -/
def lineHandleSubmit (user : Option String) (form : LineForm)
    (editing : Option LineRow) (db : List LineRow) : LineOutcome :=
  match user with
  | none => .err "You must be logged in to perform this action"
  | some uid =>
    if validateLineName form.name = false then
      .err "Invalid line name format"
    else if form.company_id = "" || form.district_id = "" || form.line_type_id = "" then
      .err "All fields are required"
    else
      let trimmedName := jsTrim form.name
      let conflicts := db.filter (fun l =>
        l.name = trimmedName &&
        l.company_id = form.company_id &&
        l.district_id = form.district_id &&
        (match editing with
         | some e => l.id ≠ e.id
         | none => true))
      match maybeSingle conflicts with
      | some _ => .err "A line with this name already exists in the selected company and district"
      | none =>
        match editing with
        | some e => .updateOp e.id trimmedName form.company_id form.district_id form.line_type_id uid
        | none => .insertOp trimmedName form.company_id form.district_id form.line_type_id uid

/-- JavaScript `parseInt(value)` with no radix argument, modelled for the
decimal inputs a numeric form field produces: skip leading whitespace, read
an optional sign and then leading decimal digits; `none` stands for NaN.
Hexadecimal `0x` prefixes are not modelled. -/
def parseIntJS (s : String) : Option Int :=
  let l := s.data.dropWhile jsWhitespaceChar
  let signAndRest : Int × List Char :=
    match l with
    | '-' :: t => (-1, t)
    | '+' :: t => (1, t)
    | _ => (1, l)
  let ds := signAndRest.2.takeWhile isDigit09
  if ds = [] then none
  else some (signAndRest.1 * (ds.foldl (fun acc c => acc * 10 + (c.toNat - 48)) 0 : Nat))

/-- Machine form state, from the MachineList component in KpiList.tsx. -/
structure MachineForm where
  name : String
  order : Int
  line_id : String
deriving DecidableEq

/-- Field-level validation errors of the machine form, from the
`ValidationErrors` interface (a `none` field means the key is absent). -/
structure MachineErrors where
  name : Option String
  order : Option String
  line : Option String
deriving DecidableEq

/-- Message of the machine order range check. -/
def orderRangeMsg : String := "Order must be a 4-digit number (1000-9999)"

/-- Message of the machine order duplicate check. -/
def orderDupMsg : String := "This order number is already used in the selected production line"

/-- MachineList `handleOrderChange`: `parseInt(value) || 1000` (NaN and 0 are
falsy, so both coerce to 1000), then the range check and the duplicate check
against the fetched `existingOrders` of the selected line, skipping the
edited machine's own order.  Returns the new form order and the order field
error. -/
def handleOrderChange (value : String) (existingOrders : List Int)
    (editing : Option Machine) : Int × Option String :=
  let numValue : Int :=
    match parseIntJS value with
    | none => 1000
    | some n => if n = 0 then 1000 else n
  let orderErr : Option String :=
    if numValue < 1000 || 9999 < numValue then
      some orderRangeMsg
    else if numValue ∈ existingOrders &&
            (match editing with
             | some m => numValue ≠ m.order
             | none => true) then
      some orderDupMsg
    else
      none
  (numValue, orderErr)

/-- MachineList `validateForm`: collects the line, name and order errors
(`existingOrders` mirrors the state filled by `fetchExistingOrders` for the
selected line). -/
def machineValidateForm (form : MachineForm) (existingOrders : List Int)
    (editing : Option Machine) : MachineErrors :=
  let lineErr : Option String :=
    if form.line_id = "" then some "Please select a production line" else none
  let nameErr : Option String :=
    if jsTrim form.name = "" then
      some "Machine name is required"
    else if validateMachineName form.name = false then
      some "Only English letters (A-Z), numbers (0-9), spaces, and hyphens are allowed"
    else
      none
  let orderErr : Option String :=
    if form.order < 1000 || 9999 < form.order then
      some orderRangeMsg
    else if form.order ∈ existingOrders &&
            (match editing with
             | some m => form.order ≠ m.order
             | none => true) then
      some orderDupMsg
    else
      none
  { name := nameErr, order := orderErr, line := lineErr }

/-- MachineList `validateForm` verdict: no error key was set. -/
def machineFormValid (e : MachineErrors) : Bool :=
  e.name = none && e.order = none && e.line = none

/-- Backend rejection of an insert/update, as the supabase error object the
handler inspects. -/
structure BackendErr where
  code : String
  message : String
deriving DecidableEq

/-- Outcome of the machine submit handler. -/
inductive MachineSubmitResult where
  | authError
  | validationFailed (errs : MachineErrors)
  | orderConflictFromServer
  | genericFailure (msg : String)
  | savedInsert (name : String) (order : Int) (line_id created_by : String)
  | savedUpdate (id name : String) (order : Int) (line_id updated_by : String)
deriving DecidableEq

/-- MachineList `handleSubmit`: auth check, `validateForm` gate (no backend
call when it fails), then the insert/update whose reply is `resp` (`none`
means success).  A rejection with code 23505 whose message mentions the
`machine_line_order_unique` constraint becomes the field-level order error
and an early return; any other rejection is thrown and caught as the generic
failure banner. -/
def machineHandleSubmit (user : Option String) (form : MachineForm)
    (existingOrders : List Int) (editing : Option Machine)
    (resp : Option BackendErr) : MachineSubmitResult :=
  match user with
  | none => .authError
  | some uid =>
    let errs := machineValidateForm form existingOrders editing
    if machineFormValid errs = false then
      .validationFailed errs
    else
      let trimmedName := jsTrim form.name
      match resp with
      | some e =>
        if e.code = "23505" && jsIncludes e.message "machine_line_order_unique" then
          .orderConflictFromServer
        else
          .genericFailure "Failed to save machine. Please try again."
      | none =>
        match editing with
        | some m => .savedUpdate m.id trimmedName form.order form.line_id uid
        | none => .savedInsert trimmedName form.order form.line_id uid

/-- Whether the modal is still open after a submit: `handleCloseDialog`
(which also resets the form) runs only on the success paths; every error
path returns with the dialog untouched. -/
def dialogOpenAfterSubmit : MachineSubmitResult → Bool
  | .savedInsert _ _ _ _ => false
  | .savedUpdate _ _ _ _ _ => false
  | _ => true

/-- Form contents after a submit: reset to the defaults by
`handleCloseDialog` on success, preserved on every error path. -/
def formAfterSubmit (form : MachineForm) : MachineSubmitResult → MachineForm
  | .savedInsert _ _ _ _ => { name := "", order := 1000, line_id := "" }
  | .savedUpdate _ _ _ _ _ => { name := "", order := 1000, line_id := "" }
  | _ => form

/-- Parameters of one list query, as assembled by the `debouncedSearch`
callback of CityList.tsx: the search term (empty means no filter), the sort
direction on the name column, and the inclusive row range. -/
structure ListQuery where
  term : String
  ascending : Bool
  rangeFrom : Nat
  rangeTo : Nat
deriving DecidableEq

/-- Query construction from CityList.tsx `debouncedSearch`: filter by
`ilike name %term%` when the term is non-empty, order by the sort column,
and request the range from `page * rowsPerPage` to
`(page + 1) * rowsPerPage - 1` inclusive. -/
def buildCityQuery (term : String) (ascending : Bool) (page rowsPerPage : Nat) : ListQuery :=
  { term := term
    ascending := ascending
    rangeFrom := page * rowsPerPage
    rangeTo := (page + 1) * rowsPerPage - 1 }

/-- Rows matching the query filter.  Modelled from the spec: the external
gateway applies `ilike name %term%` when a term is present (section 6);
the gateway itself is not code of this repository. -/
def filterRows (term : String) (db : List City) : List City :=
  if term = "" then db else db.filter (fun r => ilikeMatches r.name term)

/-- Lexicographic code-point comparison of character lists, the ordering
model for the name column. -/
def nameLeChars : List Char → List Char → Bool
  | [], _ => true
  | _ :: _, [] => false
  | a :: as, b :: bs =>
    if a.toNat < b.toNat then true
    else if b.toNat < a.toNat then false
    else nameLeChars as bs

/-- Row comparison on the name column. -/
def nameLe (a b : City) : Bool :=
  nameLeChars a.name.data b.name.data

/-- Insertion of a row into an already ordered list, the building block of
the sorting model. -/
def insertSorted (le : City → City → Bool) (x : City) : List City → List City
  | [] => [x]
  | y :: ys => if le x y then x :: y :: ys else y :: insertSorted le x ys

/-- Rows in the order requested by the query, sorting on the default `name`
column (insertion sort on the lexicographic code-point order).  Modelled
from the spec: the gateway orders by the selected column ascending or
descending (section 6). -/
def sortRows (ascending : Bool) (rows : List City) : List City :=
  let s := rows.foldr (insertSorted nameLe) []
  if ascending then s else s.reverse

/-- Execution of a list query against a database snapshot.  Modelled from
the spec: the gateway returns the rows of the inclusive range window of the
filtered, sorted result together with the exact total matching count
(section 6, `{ count: exact }`). -/
def gatewayList (db : List City) (q : ListQuery) : List City × Nat :=
  let filtered := filterRows q.term db
  let sorted := sortRows q.ascending filtered
  ((sorted.drop q.rangeFrom).take (q.rangeTo + 1 - q.rangeFrom), filtered.length)

/-- Trailing-edge debounce over a burst of calls, modelled from the lodash
`debounce(f, wait)` semantics used by every list page (no leading edge, no
maxWait): each call restarts the timer, and the function is invoked `wait`
after the last call of a burst with that call's argument.  Input is the
time-ordered call list `(time, argument)`; output is the invocation list.
The effect cleanup's `debouncedSearch.cancel()` immediately before the next
call discards the same pending timer the next call would restart, so a
cancel-then-call pair behaves as the call alone. -/
def debounceInvocations (wait : Nat) : List (Nat × String) → List (Nat × String)
  | [] => []
  | [(t, a)] => [(t + wait, a)]
  | (t1, a1) :: (t2, a2) :: rest =>
    if t2 < t1 + wait then
      debounceInvocations wait ((t2, a2) :: rest)
    else
      (t1 + wait, a1) :: debounceInvocations wait ((t2, a2) :: rest)

/-- Visible table state of a list page: the rows and the total count driving
the pagination footer. -/
structure TableState where
  rows : List City
  total : Nat
deriving DecidableEq

/-- Response application from CityList.tsx `debouncedSearch` lines 105-106:
`setCities(data)` and `setTotalCount(count)` run unconditionally when a
response arrives — nothing compares the response against the latest issued
query. -/
def applyResponse (s : TableState) (resp : List City × Nat) : TableState :=
  { s with rows := resp.1, total := resp.2 }

/-- Runs the responses of issued queries in arrival order: `results` lists
the payload of each issued query in issue order, `arrival` lists indices
into `results` in the order the responses reach the handler. -/
def runArrivals (s0 : TableState) (results : List (List City × Nat))
    (arrival : List Nat) : TableState :=
  arrival.foldl (fun s i => applyResponse s (results.getD i ([], 0))) s0

/-- Stale-response suppression as the spec demands it: whenever every issued
query's response arrives (in any order), the visible table state is that of
the last-issued query. -/
def lastIssuedWins : Prop :=
  ∀ (s0 : TableState) (results : List (List City × Nat)) (arrival : List Nat),
    results ≠ [] →
    arrival.Perm (List.range results.length) →
    runArrivals s0 results arrival =
      applyResponse s0 ((results.getLast?).getD ([], 0))

/-- Concrete city row used by the pagination and ordering scenarios: row `i`
carries the single-character name with code point `65 + i`, so the rows of
`db47` are already in ascending name order. -/
def mkCity (i : Nat) : City :=
  { id := String.mk [Char.ofNat (65 + i)]
    name := String.mk [Char.ofNat (65 + i)]
    country_id := "K" }

/-- Concrete database snapshot of 47 cities for the pagination scenario of
the spec (count 47, rowsPerPage 15, page 3). -/
def db47 : List City :=
  (List.range 47).map mkCity

/-! Helper lemmas -/

/-- Trimming preserves a per-character allow-list: the trimmed string's
characters are among the original ones. -/
lemma all_jsTrim {p : Char → Bool} {s : String} (h : s.data.all p = true) :
    (jsTrim s).data.all p = true := by
  rw [List.all_eq_true] at h ⊢
  intro x hx
  apply h
  simp only [jsTrim] at hx
  have hx1 : x ∈ (s.data.dropWhile jsWhitespaceChar).reverse.dropWhile jsWhitespaceChar :=
    List.mem_reverse.mp hx
  have hx2 : x ∈ (s.data.dropWhile jsWhitespaceChar).reverse :=
    (List.dropWhile_sublist _).subset hx1
  exact (List.dropWhile_sublist _).subset (List.mem_reverse.mp hx2)

/-- Insertion keeps exactly the members of the list plus the new element. -/
lemma mem_insertSorted {le : City → City → Bool} {x a : City} {l : List City} :
    x ∈ insertSorted le a l ↔ x = a ∨ x ∈ l := by
  induction l with
  | nil => simp [insertSorted]
  | cons y ys ih =>
    unfold insertSorted
    by_cases h : le a y = true
    · rw [if_pos h]
      simp
    · rw [if_neg h]
      simp only [List.mem_cons, ih]
      tauto

/-- The insertion sort of a list has exactly the list's members. -/
lemma mem_insertionSort {le : City → City → Bool} {x : City} {l : List City} :
    x ∈ l.foldr (insertSorted le) [] ↔ x ∈ l := by
  induction l with
  | nil => simp
  | cons y ys ih => simp [mem_insertSorted, ih]

/-- Bool coercion helper: a Bool that is not false is true. -/
lemma bool_not_false {b : Bool} (h : ¬ b = false) : b = true := by
  cases b
  · exact absurd rfl h
  · rfl

/-- Inversion for the company submit: a stored name is the trimmed form name
and the form name passed the regex. -/
lemma company_stored_name_valid {u : Option String} {nm : String}
    {ed : Option Company} {db : List Company} {x b : String}
    (h : companyHandleSubmit u nm ed db = CompanyOutcome.insertOp x b ∨
         (∃ i, companyHandleSubmit u nm ed db = CompanyOutcome.updateOp i x b)) :
    validateCompanyName x = true := by
  rcases h with h | ⟨i, h⟩ <;>
  · unfold companyHandleSubmit at h
    cases u with
    | none => exact CompanyOutcome.noConfusion h
    | some uid =>
      cases ed with
      | none =>
        dsimp only at h
        split at h
        · exact CompanyOutcome.noConfusion h
        · next hv =>
          split at h
          · exact CompanyOutcome.noConfusion h
          · first
            | · injection h with h1 h2
                subst h1
                exact all_jsTrim (bool_not_false hv)
            | exact CompanyOutcome.noConfusion h
      | some e =>
        dsimp only at h
        split at h
        · exact CompanyOutcome.noConfusion h
        · next hv =>
          split at h
          · exact CompanyOutcome.noConfusion h
          · first
            | · injection h with h0 h1 h2
                subst h1
                exact all_jsTrim (bool_not_false hv)
            | exact CompanyOutcome.noConfusion h

/-- Inversion for the city submit: a stored name passed the regex. -/
lemma city_stored_name_valid {u : Option String} {form : CityForm}
    {ed : Option City} {db : List City} {x k b : String}
    (h : cityHandleSubmit u form ed db = CityOutcome.insertOp x k b ∨
         (∃ i, cityHandleSubmit u form ed db = CityOutcome.updateOp i x k b)) :
    validateCityName x = true := by
  rcases h with h | ⟨i, h⟩ <;>
  · unfold cityHandleSubmit at h
    cases u with
    | none => exact CityOutcome.noConfusion h
    | some uid =>
      cases ed with
      | none =>
        dsimp only at h
        split at h
        · exact CityOutcome.noConfusion h
        · next hv =>
          split at h
          · exact CityOutcome.noConfusion h
          · split at h
            · exact CityOutcome.noConfusion h
            · first
              | · injection h with h1 h2 h3
                  subst h1
                  exact all_jsTrim (bool_not_false hv)
              | exact CityOutcome.noConfusion h
      | some e =>
        dsimp only at h
        split at h
        · exact CityOutcome.noConfusion h
        · next hv =>
          split at h
          · exact CityOutcome.noConfusion h
          · split at h
            · exact CityOutcome.noConfusion h
            · first
              | · injection h with h0 h1 h2 h3
                  subst h1
                  exact all_jsTrim (bool_not_false hv)
              | exact CityOutcome.noConfusion h

/-- Inversion for the line submit: a stored name passed the regex. -/
lemma line_stored_name_valid {u : Option String} {form : LineForm}
    {ed : Option LineRow} {db : List LineRow} {x c d t b : String}
    (h : lineHandleSubmit u form ed db = LineOutcome.insertOp x c d t b ∨
         (∃ i, lineHandleSubmit u form ed db = LineOutcome.updateOp i x c d t b)) :
    validateLineName x = true := by
  rcases h with h | ⟨i, h⟩ <;>
  · unfold lineHandleSubmit at h
    cases u with
    | none => exact LineOutcome.noConfusion h
    | some uid =>
      cases ed with
      | none =>
        dsimp only at h
        split at h
        · exact LineOutcome.noConfusion h
        · next hv =>
          split at h
          · exact LineOutcome.noConfusion h
          · split at h
            · exact LineOutcome.noConfusion h
            · first
              | · injection h with h1 h2 h3 h4 h5
                  subst h1
                  exact all_jsTrim (bool_not_false hv)
              | exact LineOutcome.noConfusion h
      | some e =>
        dsimp only at h
        split at h
        · exact LineOutcome.noConfusion h
        · next hv =>
          split at h
          · exact LineOutcome.noConfusion h
          · split at h
            · exact LineOutcome.noConfusion h
            · first
              | · injection h with h0 h1 h2 h3 h4 h5
                  subst h1
                  exact all_jsTrim (bool_not_false hv)
              | exact LineOutcome.noConfusion h

/-- When the machine form validates, its name passed the regex. -/
lemma machineValidateForm_name_ok {form : MachineForm} {eo : List Int}
    {ed : Option Machine}
    (h : machineFormValid (machineValidateForm form eo ed) = true) :
    validateMachineName form.name = true := by
  unfold machineFormValid machineValidateForm at h
  by_cases h1 : jsTrim form.name = ""
  · simp [h1] at h
  · by_cases h2 : validateMachineName form.name = false
    · simp [h1, h2] at h
    · exact bool_not_false h2

/-- Inversion for the machine submit: a stored name passed the regex. -/
lemma machine_stored_name_valid {u : Option String} {form : MachineForm}
    {eo : List Int} {ed : Option Machine} {resp : Option BackendErr}
    {x l b : String} {o : Int}
    (h : machineHandleSubmit u form eo ed resp = MachineSubmitResult.savedInsert x o l b ∨
         (∃ i, machineHandleSubmit u form eo ed resp = MachineSubmitResult.savedUpdate i x o l b)) :
    validateMachineName x = true := by
  rcases h with h | ⟨i, h⟩ <;>
  · unfold machineHandleSubmit at h
    cases u with
    | none => exact MachineSubmitResult.noConfusion h
    | some uid =>
      dsimp only at h
      split at h
      · exact MachineSubmitResult.noConfusion h
      · next hv =>
        have hok : validateMachineName form.name = true :=
          machineValidateForm_name_ok (bool_not_false hv)
        cases resp with
        | some e =>
          dsimp only at h
          split at h <;> exact MachineSubmitResult.noConfusion h
        | none =>
          cases ed with
          | none =>
            dsimp only at h
            first
            | · injection h with h1 h2 h3 h4
                subst h1
                exact all_jsTrim hok
            | exact MachineSubmitResult.noConfusion h
          | some m =>
            dsimp only at h
            first
            | · injection h with h0 h1 h2 h3 h4
                subst h1
                exact all_jsTrim hok
            | exact MachineSubmitResult.noConfusion h

/-! Claim theorems -/

/-- C2 (counterexample): the claim that every entity-list controller rejects
an empty name at submit time fails for the company controller: with a logged
in user, an empty form name and an empty pre-check result, `handleSubmit`
reports no validation error and issues an insert with the empty name — the
regex accepts the empty string and no non-emptiness check exists. -/
theorem c2_counterexample :
    companyHandleSubmit (some "u1") "" none [] = CompanyOutcome.insertOp "" "u1" := by
  decide

/-- C2 (amended): only the KPI and machine controllers reject an empty or
whitespace-only name at submit time with a validation error and no backend
write; the company controller (like the other regex-validated ones) lets an
empty name through to the insert. -/
theorem c2_empty_name_rejected_kpi_machine
    (u : String) (kform : KpiForm) (kEd : Option Kpi) (kdb : List Kpi)
    (mform : MachineForm) (eo : List Int) (mEd : Option Machine) (resp : Option BackendErr)
    (hk : jsTrim kform.name = "") (hm : jsTrim mform.name = "") :
    kpiHandleSubmit (some u) kform kEd kdb = KpiOutcome.err "Name and unit are required"
    ∧ machineHandleSubmit (some u) mform eo mEd resp =
        MachineSubmitResult.validationFailed (machineValidateForm mform eo mEd)
    ∧ (machineValidateForm mform eo mEd).name = some "Machine name is required" := by
  have hname : (machineValidateForm mform eo mEd).name = some "Machine name is required" := by
    unfold machineValidateForm
    simp [hm]
  have hvalid : machineFormValid (machineValidateForm mform eo mEd) = false := by
    unfold machineFormValid
    rw [hname]
    simp
  refine ⟨?_, ?_, hname⟩
  · unfold kpiHandleSubmit
    simp [hk]
  · unfold machineHandleSubmit
    simp [hvalid]

/-- C2 (witness): concrete instance with whitespace-only names. -/
theorem c2_empty_name_rejected_kpi_machine_witness :
    jsTrim " " = ""
    ∧ (kpiHandleSubmit (some "u1") { name := " ", unit := "kWh" } none []
         = KpiOutcome.err "Name and unit are required"
       ∧ machineHandleSubmit (some "u1") { name := " ", order := 1000, line_id := "L1" } [] none none =
           MachineSubmitResult.validationFailed
             (machineValidateForm { name := " ", order := 1000, line_id := "L1" } [] none)
       ∧ (machineValidateForm { name := " ", order := 1000, line_id := "L1" } [] none).name
           = some "Machine name is required") :=
  ⟨by decide,
   c2_empty_name_rejected_kpi_machine "u1" { name := " ", unit := "kWh" } none []
     { name := " ", order := 1000, line_id := "L1" } [] none none (by decide) (by decide)⟩

/-- C3 (counterexample): the claim that every stored name is uppercase-only
over the restricted character set fails for the KPI controller: the KPI name
field is never validated or uppercased, so the name is stored as typed; the
stored value fails even the widest allow-list (the line/machine one). -/
theorem c3_counterexample :
    kpiHandleSubmit (some "u1") { name := "acme!", unit := "kWh" } none []
      = KpiOutcome.insertOp "acme!" "kWh" "u1"
    ∧ validateMachineName "acme!" = false
    ∧ validateCompanyName "acme!" = false := by
  decide

/-- C3 (amended): for the regex-validated controllers (company — and the
textually identical country, district and line-type ones — city, line,
machine), every name stored by an issued insert or update passes that
entity's allow-list regex; the KPI controller stores names with no such
restriction. -/
theorem c3_stored_names_match_regex
    (u : Option String) (cnm : String) (cEd : Option Company) (cdb : List Company)
    (cform : CityForm) (ciEd : Option City) (cidb : List City)
    (lform : LineForm) (lEd : Option LineRow) (ldb : List LineRow)
    (mform : MachineForm) (eo : List Int) (mEd : Option Machine) (resp : Option BackendErr) :
    (∀ x b, companyHandleSubmit u cnm cEd cdb = CompanyOutcome.insertOp x b →
        validateCompanyName x = true)
    ∧ (∀ i x b, companyHandleSubmit u cnm cEd cdb = CompanyOutcome.updateOp i x b →
        validateCompanyName x = true)
    ∧ (∀ x k b, cityHandleSubmit u cform ciEd cidb = CityOutcome.insertOp x k b →
        validateCityName x = true)
    ∧ (∀ i x k b, cityHandleSubmit u cform ciEd cidb = CityOutcome.updateOp i x k b →
        validateCityName x = true)
    ∧ (∀ x c d t b, lineHandleSubmit u lform lEd ldb = LineOutcome.insertOp x c d t b →
        validateLineName x = true)
    ∧ (∀ i x c d t b, lineHandleSubmit u lform lEd ldb = LineOutcome.updateOp i x c d t b →
        validateLineName x = true)
    ∧ (∀ x o l b, machineHandleSubmit u mform eo mEd resp = MachineSubmitResult.savedInsert x o l b →
        validateMachineName x = true)
    ∧ (∀ i x o l b, machineHandleSubmit u mform eo mEd resp = MachineSubmitResult.savedUpdate i x o l b →
        validateMachineName x = true) :=
  ⟨fun _ _ h => company_stored_name_valid (Or.inl h),
   fun i _ _ h => company_stored_name_valid (Or.inr ⟨i, h⟩),
   fun _ _ _ h => city_stored_name_valid (Or.inl h),
   fun i _ _ _ h => city_stored_name_valid (Or.inr ⟨i, h⟩),
   fun _ _ _ _ _ h => line_stored_name_valid (Or.inl h),
   fun i _ _ _ _ _ h => line_stored_name_valid (Or.inr ⟨i, h⟩),
   fun _ _ _ _ h => machine_stored_name_valid (Or.inl h),
   fun i _ _ _ _ h => machine_stored_name_valid (Or.inr ⟨i, h⟩)⟩

/-- C3 (witness): a concrete company insert stores the trimmed name and it
passes the regex. -/
theorem c3_stored_names_match_regex_witness :
    companyHandleSubmit (some "u1") " ACME " none [] = CompanyOutcome.insertOp "ACME" "u1"
    ∧ validateCompanyName "ACME" = true :=
  ⟨by decide,
   (c3_stored_names_match_regex (some "u1") " ACME " none []
      { name := "", country_id := "" } none []
      { name := "", company_id := "", district_id := "", line_type_id := "" } none []
      { name := "", order := 1000, line_id := "" } [] none none).1
     "ACME" "u1" (by decide)⟩

/-- C7: name validation per entity on the spec's examples: typing Acme into
the company form is eagerly uppercased to ACME, accepted, and submitted as
an insert; Acme-1 uppercases to ACME-1 and is rejected both inline and at
submit (digits and hyphens are outside the company allow-list); LINE-1
passes the line validator and is submitted. -/
theorem c7_name_validation_examples :
    companyHandleNameChange "Acme" = ("ACME", none)
    ∧ companyHandleSubmit (some "u1") "ACME" none [] = CompanyOutcome.insertOp "ACME" "u1"
    ∧ companyHandleNameChange "Acme-1" =
        ("ACME-1", some "Only English letters (A-Z) and spaces are allowed")
    ∧ companyHandleSubmit (some "u1") "ACME-1" none [] =
        CompanyOutcome.err "Invalid company name format"
    ∧ lineHandleNameChange "LINE-1" = ("LINE-1", none)
    ∧ lineHandleSubmit (some "u1")
        { name := "LINE-1", company_id := "co1", district_id := "d1", line_type_id := "lt1" }
        none []
        = LineOutcome.insertOp "LINE-1" "co1" "d1" "lt1" "u1" := by
  decide

/-- C6: machine order validation: order 1000 colliding with a fetched
existing order of the selected line (and not the edited machine's own order)
fails `validateForm`, so the submit stops before any backend call; 9999
passes the range check (and validates when free); any order outside
1000–9999 is rejected as out of range, also before any backend call. -/
theorem c6_machine_order_validation
    (uid : String) (form : MachineForm) (eo : List Int) (ed : Option Machine)
    (resp : Option BackendErr) :
    (form.order = 1000 → (1000 : Int) ∈ eo →
       (match ed with | some m => m.order ≠ 1000 | none => True) →
       machineHandleSubmit (some uid) form eo ed resp =
         MachineSubmitResult.validationFailed (machineValidateForm form eo ed)
       ∧ (machineValidateForm form eo ed).order = some orderDupMsg)
    ∧ (form.order = 9999 → ¬ (form.order < 1000 ∨ 9999 < form.order)
        ∧ ((9999 : Int) ∉ eo → (machineValidateForm form eo ed).order = none))
    ∧ ((form.order < 1000 ∨ 9999 < form.order) →
        (machineValidateForm form eo ed).order = some orderRangeMsg
        ∧ machineHandleSubmit (some uid) form eo ed resp =
            MachineSubmitResult.validationFailed (machineValidateForm form eo ed)) := by
  refine ⟨?_, ?_, ?_⟩
  · intro h1000 hin hown
    have horder : (machineValidateForm form eo ed).order = some orderDupMsg := by
      unfold machineValidateForm
      cases ed with
      | none => simp [h1000, hin]
      | some m => simp [h1000, hin, Ne.symm hown]
    have hvalid : machineFormValid (machineValidateForm form eo ed) = false := by
      unfold machineFormValid
      rw [horder]
      simp
    refine ⟨?_, horder⟩
    unfold machineHandleSubmit
    simp [hvalid]
  · intro h9999
    refine ⟨by rw [h9999]; decide, ?_⟩
    intro hnotin
    unfold machineValidateForm
    simp [h9999, hnotin]
  · intro hrange
    have horder : (machineValidateForm form eo ed).order = some orderRangeMsg := by
      unfold machineValidateForm
      rcases hrange with h | h <;> simp [h]
    have hvalid : machineFormValid (machineValidateForm form eo ed) = false := by
      unfold machineFormValid
      rw [horder]
      simp
    refine ⟨horder, ?_⟩
    unfold machineHandleSubmit
    simp [hvalid]

/-- C6 (witness): order 1000 with 1000 already taken on line L1 is blocked
before any backend call; order 10000 is blocked as out of range. -/
theorem c6_machine_order_validation_witness :
    (1000 : Int) ∈ ([1000] : List Int)
    ∧ (machineHandleSubmit (some "u1") { name := "M-1", order := 1000, line_id := "L1" } [1000] none none =
         MachineSubmitResult.validationFailed
           (machineValidateForm { name := "M-1", order := 1000, line_id := "L1" } [1000] none)
       ∧ (machineValidateForm { name := "M-1", order := 1000, line_id := "L1" } [1000] none).order
           = some orderDupMsg)
    ∧ ((machineValidateForm { name := "M-1", order := 10000, line_id := "L1" } [] none).order
         = some orderRangeMsg
       ∧ machineHandleSubmit (some "u1") { name := "M-1", order := 10000, line_id := "L1" } [] none none =
           MachineSubmitResult.validationFailed
             (machineValidateForm { name := "M-1", order := 10000, line_id := "L1" } [] none)) :=
  ⟨by decide,
   (c6_machine_order_validation "u1" { name := "M-1", order := 1000, line_id := "L1" }
      [1000] none none).1 rfl (by decide) trivial,
   (c6_machine_order_validation "u1" { name := "M-1", order := 10000, line_id := "L1" }
      [] none none).2.2 (by right; decide)⟩

/-- C9: when a machine insert/update passes local validation and the backend
rejects it, error code 23505 with a message mentioning the
machine_line_order_unique constraint is mapped to the field-level order
error with the modal open and the form preserved and no generic banner;
every other rejection yields the generic failed-to-save banner, also with
the modal open and the form preserved. -/
theorem c9_machine_backend_error_mapping
    (uid : String) (form : MachineForm) (eo : List Int) (ed : Option Machine)
    (e : BackendErr)
    (hvalid : machineFormValid (machineValidateForm form eo ed) = true) :
    (e.code = "23505" → jsIncludes e.message "machine_line_order_unique" = true →
       machineHandleSubmit (some uid) form eo ed (some e) =
         MachineSubmitResult.orderConflictFromServer
       ∧ dialogOpenAfterSubmit (machineHandleSubmit (some uid) form eo ed (some e)) = true
       ∧ formAfterSubmit form (machineHandleSubmit (some uid) form eo ed (some e)) = form)
    ∧ (¬ (e.code = "23505" ∧ jsIncludes e.message "machine_line_order_unique" = true) →
       machineHandleSubmit (some uid) form eo ed (some e) =
         MachineSubmitResult.genericFailure "Failed to save machine. Please try again."
       ∧ dialogOpenAfterSubmit (machineHandleSubmit (some uid) form eo ed (some e)) = true
       ∧ formAfterSubmit form (machineHandleSubmit (some uid) form eo ed (some e)) = form) := by
  constructor
  · intro hc hmsg
    have hres : machineHandleSubmit (some uid) form eo ed (some e) =
        MachineSubmitResult.orderConflictFromServer := by
      unfold machineHandleSubmit
      simp [hvalid, hc, hmsg]
    exact ⟨hres, by rw [hres]; rfl, by rw [hres]; rfl⟩
  · intro hnot
    have hcond : (e.code = "23505" && jsIncludes e.message "machine_line_order_unique") = false := by
      by_cases hc : e.code = "23505"
      · cases hj : jsIncludes e.message "machine_line_order_unique" with
        | false => simp [hj]
        | true => exact absurd ⟨hc, hj⟩ hnot
      · simp [hc]
    have hres : machineHandleSubmit (some uid) form eo ed (some e) =
        MachineSubmitResult.genericFailure "Failed to save machine. Please try again." := by
      unfold machineHandleSubmit
      simp only [hvalid]
      simp [hcond]
    exact ⟨hres, by rw [hres]; rfl, by rw [hres]; rfl⟩

/-- C9 (witness): concrete constraint violation and a concrete unrelated
backend failure. -/
theorem c9_machine_backend_error_mapping_witness :
    machineFormValid (machineValidateForm { name := "M-1", order := 1000, line_id := "L1" } [] none) = true
    ∧ (machineHandleSubmit (some "u1") { name := "M-1", order := 1000, line_id := "L1" } [] none
         (some { code := "23505", message := "violates machine_line_order_unique" }) =
           MachineSubmitResult.orderConflictFromServer
       ∧ dialogOpenAfterSubmit
           (machineHandleSubmit (some "u1") { name := "M-1", order := 1000, line_id := "L1" } [] none
             (some { code := "23505", message := "violates machine_line_order_unique" })) = true
       ∧ formAfterSubmit { name := "M-1", order := 1000, line_id := "L1" }
           (machineHandleSubmit (some "u1") { name := "M-1", order := 1000, line_id := "L1" } [] none
             (some { code := "23505", message := "violates machine_line_order_unique" }))
           = { name := "M-1", order := 1000, line_id := "L1" })
    ∧ (machineHandleSubmit (some "u1") { name := "M-1", order := 1000, line_id := "L1" } [] none
         (some { code := "500", message := "network down" }) =
           MachineSubmitResult.genericFailure "Failed to save machine. Please try again."
       ∧ dialogOpenAfterSubmit
           (machineHandleSubmit (some "u1") { name := "M-1", order := 1000, line_id := "L1" } [] none
             (some { code := "500", message := "network down" })) = true
       ∧ formAfterSubmit { name := "M-1", order := 1000, line_id := "L1" }
           (machineHandleSubmit (some "u1") { name := "M-1", order := 1000, line_id := "L1" } [] none
             (some { code := "500", message := "network down" }))
           = { name := "M-1", order := 1000, line_id := "L1" }) :=
  ⟨by decide,
   (c9_machine_backend_error_mapping "u1" { name := "M-1", order := 1000, line_id := "L1" } [] none
      { code := "23505", message := "violates machine_line_order_unique" } (by decide)).1
     rfl (by decide),
   (c9_machine_backend_error_mapping "u1" { name := "M-1", order := 1000, line_id := "L1" } [] none
      { code := "500", message := "network down" } (by decide)).2
     (by intro hand; exact absurd hand.1 (by decide))⟩

/-- C10: an order input that does not parse to a non-zero integer is coerced
to 1000 by the `parseInt(value) || 1000` idiom: the form order becomes 1000,
the handler behaves exactly as if 1000 had been typed, and no order error is
reported when 1000 is available (not an existing order of the line, or the
edited machine's own order). -/
theorem c10_order_coercion (v : String) (eo : List Int) (ed : Option Machine)
    (h : parseIntJS v = none ∨ parseIntJS v = some 0) :
    (handleOrderChange v eo ed).1 = 1000
    ∧ handleOrderChange v eo ed = handleOrderChange "1000" eo ed
    ∧ (((1000 : Int) ∉ eo ∨ (∃ m, ed = some m ∧ m.order = 1000)) →
        (handleOrderChange v eo ed).2 = none) := by
  have hnum : (match parseIntJS v with
      | none => (1000 : Int)
      | some n => if n = 0 then 1000 else n) = 1000 := by
    rcases h with h | h <;> simp [h]
  have hp : parseIntJS "1000" = some 1000 := by decide
  refine ⟨?_, ?_, ?_⟩
  · simp only [handleOrderChange]
    rw [hnum]
  · simp only [handleOrderChange]
    rw [hnum, hp]
    simp
  · intro havail
    simp only [handleOrderChange]
    rw [hnum]
    rcases havail with hnot | ⟨m, hed, hmo⟩
    · simp [hnot]
    · subst hed
      simp [hmo]

/-- C10 (witness): clearing the field, typing text, and typing 0 all reset
the order to 1000 with no error when 1000 is free. -/
theorem c10_order_coercion_witness :
    (parseIntJS "" = none ∨ parseIntJS "" = some 0)
    ∧ (handleOrderChange "" [] none).1 = 1000
    ∧ handleOrderChange "" [] none = handleOrderChange "1000" [] none
    ∧ (handleOrderChange "" [] none).2 = none :=
  have h := c10_order_coercion "" [] none (Or.inl (by decide))
  ⟨Or.inl (by decide), h.1, h.2.1, h.2.2 (Or.inl (by decide))⟩

/-- C8: the city submit runs the pre-check scoped by the parent country
(excluding the edited row's own id): under a logged-in user, a valid name, a
selected country, and the scoped-uniqueness invariant of the data model (at
most one matching row, which the server-side constraint maintains), a
conflict makes the submit stop with the user-facing duplicate message and no
insert/update, while an empty conflict set (in particular the same name
under a different country) lets the insert/update go out; the conflict set
is non-empty exactly when a city with the same trimmed name exists under the
same country_id (other than the edited row itself). -/
theorem c8_city_duplicate_precheck
    (uid : String) (form : CityForm) (ed : Option City) (db : List City)
    (hname : validateCityName form.name = true)
    (hcountry : form.country_id ≠ "")
    (hinv : (cityConflicts form ed db).length ≤ 1) :
    (cityConflicts form ed db ≠ [] →
       cityHandleSubmit (some uid) form ed db =
         CityOutcome.err "A city with this name already exists in the selected country")
    ∧ (cityConflicts form ed db = [] →
       cityHandleSubmit (some uid) form ed db =
         (match ed with
          | some e => CityOutcome.updateOp e.id (jsTrim form.name) form.country_id uid
          | none => CityOutcome.insertOp (jsTrim form.name) form.country_id uid))
    ∧ (cityConflicts form ed db ≠ [] ↔
        ∃ c ∈ db, c.name = jsTrim form.name ∧ c.country_id = form.country_id ∧
          (match ed with | some e => c.id ≠ e.id | none => True)) := by
  refine ⟨?_, ?_, ?_⟩
  · intro hne
    rcases hc : cityConflicts form ed db with _ | ⟨c, rest⟩
    · exact absurd hc hne
    · have hrest : rest = [] := by
        rw [hc] at hinv
        simpa using hinv
      subst hrest
      unfold cityHandleSubmit
      simp [hname, hcountry, hc, maybeSingle]
  · intro hnil
    unfold cityHandleSubmit
    cases ed <;> simp [hname, hcountry, hnil, maybeSingle]
  · rw [ne_eq, cityConflicts, List.filter_eq_nil_iff]
    cases ed with
    | none =>
      push_neg
      constructor
      · rintro ⟨c, hmem, hp⟩
        simp only [Bool.and_true, Bool.and_eq_true, decide_eq_true_eq,
          Bool.not_eq_true, Bool.not_eq_false] at hp
        exact ⟨c, hmem, hp.1, hp.2, trivial⟩
      · rintro ⟨c, hmem, h1, h2, _⟩
        exact ⟨c, hmem, by simp [h1, h2]⟩
    | some e =>
      push_neg
      constructor
      · rintro ⟨c, hmem, hp⟩
        simp only [Bool.and_eq_true, decide_eq_true_eq,
          Bool.not_eq_true, Bool.not_eq_false] at hp
        exact ⟨c, hmem, hp.1.1, hp.1.2, hp.2⟩
      · rintro ⟨c, hmem, h1, h2, h3⟩
        exact ⟨c, hmem, by simp [h1, h2, h3]⟩

/-- C8 (witness): SPRINGFIELD under the same country is rejected with no
backend write; SPRINGFIELD under a different country is inserted. -/
theorem c8_city_duplicate_precheck_witness :
    validateCityName "SPRINGFIELD" = true
    ∧ cityHandleSubmit (some "u1") { name := "SPRINGFIELD", country_id := "K1" } none
        [{ id := "c1", name := "SPRINGFIELD", country_id := "K1" }] =
        CityOutcome.err "A city with this name already exists in the selected country"
    ∧ cityHandleSubmit (some "u1") { name := "SPRINGFIELD", country_id := "K2" } none
        [{ id := "c1", name := "SPRINGFIELD", country_id := "K1" }] =
        CityOutcome.insertOp "SPRINGFIELD" "K2" "u1" :=
  ⟨by decide,
   (c8_city_duplicate_precheck "u1" { name := "SPRINGFIELD", country_id := "K1" } none
      [{ id := "c1", name := "SPRINGFIELD", country_id := "K1" }]
      (by decide) (by decide) (by decide)).1 (by decide),
   (c8_city_duplicate_precheck "u1" { name := "SPRINGFIELD", country_id := "K2" } none
      [{ id := "c1", name := "SPRINGFIELD", country_id := "K1" }]
      (by decide) (by decide) (by decide)).2.1 (by decide)⟩

/-- C4: the list query requests exactly the contiguous window of
`rowsPerPage` rows starting at `page * rowsPerPage` of the filtered, sorted
result, together with the exact total matching count; in particular, for 47
matching rows with rowsPerPage 15 and page 3 the result is the 2 rows at
indices 45 and 46 with total 47. -/
theorem c4_pagination_window :
    (∀ (db : List City) (term : String) (asc : Bool) (p rpp : Nat), 1 ≤ rpp →
      gatewayList db (buildCityQuery term asc p rpp) =
        (((sortRows asc (filterRows term db)).drop (p * rpp)).take rpp,
         (filterRows term db).length))
    ∧ gatewayList db47 (buildCityQuery "" true 3 15) = ([mkCity 45, mkCity 46], 47) := by
  constructor
  · intro db term asc p rpp h
    unfold gatewayList buildCityQuery
    dsimp only
    have hexp : (p + 1) * rpp = p * rpp + rpp := by ring
    rw [hexp]
    have harith : p * rpp + rpp - 1 + 1 - p * rpp = rpp := by omega
    rw [harith]
  · decide

/-- C4 (witness): the window formula instantiated at the concrete database. -/
theorem c4_pagination_window_witness :
    1 ≤ 15
    ∧ gatewayList db47 (buildCityQuery "" true 3 15) =
        (((sortRows true (filterRows "" db47)).drop (3 * 15)).take 15,
         (filterRows "" db47).length) :=
  ⟨by decide, c4_pagination_window.1 db47 "" true 3 15 (by decide)⟩

/-- C5: three search-term changes whose gaps stay inside the 300 ms debounce
window produce exactly one invocation, carrying the final term, 300 ms after
the last change; and every row of the query result for a non-empty term
contains the term case-insensitively. -/
theorem c5_debounce_single_query
    (t1 t2 t3 : Nat) (s1 s2 s3 : String) (db : List City) (asc : Bool) (p rpp : Nat)
    (h12 : t2 < t1 + 300) (h23 : t3 < t2 + 300) :
    debounceInvocations 300 [(t1, s1), (t2, s2), (t3, s3)] = [(t3 + 300, s3)]
    ∧ (s3 ≠ "" → ∀ r ∈ (gatewayList db (buildCityQuery s3 asc p rpp)).1,
        ilikeMatches r.name s3 = true) := by
  constructor
  · simp [debounceInvocations, h12, h23]
  · intro hs3 r hr
    simp only [gatewayList, buildCityQuery] at hr
    have h1 : r ∈ sortRows asc (filterRows s3 db) := by
      have h0 := (List.take_sublist _ _).subset hr
      exact (List.drop_sublist _ _).subset h0
    have h2 : r ∈ filterRows s3 db := by
      cases asc with
      | true => simpa [sortRows, mem_insertionSort] using h1
      | false => simpa [sortRows, mem_insertionSort] using h1
    unfold filterRows at h2
    rw [if_neg hs3] at h2
    exact (List.mem_filter.mp h2).2

/-- C5 (witness): keystrokes at 0, 100 and 200 ms with final term ABC. -/
theorem c5_debounce_single_query_witness :
    (100 < 0 + 300 ∧ 200 < 100 + 300)
    ∧ (debounceInvocations 300 [(0, "A"), (100, "AB"), (200, "ABC")] = [(200 + 300, "ABC")]
       ∧ ("ABC" ≠ "" → ∀ r ∈ (gatewayList db47 (buildCityQuery "ABC" true 0 15)).1,
           ilikeMatches r.name "ABC" = true)) :=
  ⟨by decide,
   c5_debounce_single_query 0 100 200 "A" "AB" "ABC" db47 true 0 15 (by decide) (by decide)⟩

/-- C1 (counterexample): the claim that only the most recently issued
query's response may update the table fails: with two issued queries whose
responses arrive out of order, the handler applies both unconditionally and
the superseded first query's payload is what remains visible. -/
theorem c1_counterexample : ¬ lastIssuedWins := by
  intro h
  have h2 := h { rows := [], total := 0 } [([mkCity 0], 1), ([mkCity 1], 1)] [1, 0]
    (by decide) (by decide)
  exact absurd h2 (by decide)

/-- C1 (amended): response application is unconditional, so the visible
table state after the final response equals that response's payload in
arrival order — last arrival wins, whether or not it was last issued; only
pending (not yet fired) debounce timers are cancelled by newer input. -/
theorem c1_last_arrival_wins (s0 : TableState) (results : List (List City × Nat))
    (arrival : List Nat) (i : Nat) :
    runArrivals s0 results (arrival ++ [i]) =
      { rows := (results.getD i ([], 0)).1, total := (results.getD i ([], 0)).2 } := by
  unfold runArrivals
  rw [List.foldl_append]
  rfl

end Sentinel
